import Mathlib

/-!
Shallow embedding of the connection-pulse probing engine
(`src/src-tauri/src/lib.rs`).

Pure data manipulation (the target registry, the ping-output parser, the
dispatch logic, the construction of `ProbeResult` records) is translated
directly.  The effectful boundary — OS name resolution, TCP connects, the
external `ping` process, clocks, and the tokio join of a spawned task — is
made explicit as environment records (`TcpEnv`, `PingEnv`, `ProbeEnv`):
each field is the outcome the operating system / runtime produced for the
one probe call under consideration (Rust `Instant::elapsed` reads become
`Nat` fields, `u64`/`u16` become `Nat`, Rust `f64` latency parsing is
modelled exactly over the decimal token).  Rust `to_lowercase`/`trim` are
modelled on ASCII, where they agree with the Unicode originals.
-/

namespace ConnectionPulse

/-- Target record (`struct Target` in lib.rs); `port : u16` becomes `Nat`. -/
structure Target where
  id : String
  name : String
  host : String
  port : Nat
  probe_type : String
deriving Repr, DecidableEq

/-- Result record (`struct ProbeResult` in lib.rs); `u64` fields become `Nat`. -/
structure ProbeResult where
  id : String
  ok : Bool
  latency_ms : Nat
  error : Option String
  timestamp : Nat
deriving Repr, DecidableEq

/-- Serde default for `Target.probe_type` (`fn default_probe_type`). -/
def default_probe_type : String := "tcp"

/-- Registry write (`fn set_targets`): `*t = targets` — the whole stored
vector is replaced, no per-item validation or diffing. The registry state
is the stored `Vec<Target>`. -/
def set_targets (_state : List Target) (targets : List Target) : List Target :=
  targets

/-- Registry read (`fn get_targets`): returns `state.targets.read().clone()`,
a copy of the stored vector. -/
def get_targets (state : List Target) : List Target :=
  state

/-- Outcome of `addr.to_socket_addrs()` for one address string: resolution
error, an empty result set, or at least one concrete address. -/
inductive ResolveOutcome
  | err (cause : String)
  | empty
  | addr
deriving Repr, DecidableEq

/-- Outcome of `TcpStream::connect_timeout` on the resolved address. -/
inductive ConnectOutcome
  | ok
  | err (msg : String)
deriving Repr, DecidableEq

/-- Environment of one `tcp_probe` call: what the OS did.  `timestamp` is
`SystemTime::now` (ms since Unix epoch) captured at probe start;
`elapsedAtResolve` / `elapsedAtConnect` are the `start.elapsed()` readings
at the resolution-failure return points and at the post-connect return
points respectively. -/
structure TcpEnv where
  resolve : String → ResolveOutcome
  connect : Nat → ConnectOutcome
  timestamp : Nat
  elapsedAtResolve : Nat
  elapsedAtConnect : Nat

/-- TCP-connect probe (`fn tcp_probe`): format `"{host}:{port}"`, resolve,
take the first address, connect with the given timeout; every exit point
builds a `ProbeResult` with `id = ""` and the timestamp captured at start. -/
def tcp_probe (env : TcpEnv) (host : String) (port : Nat) (timeout_ms : Nat) :
    ProbeResult :=
  let addr := host ++ ":" ++ toString port
  match env.resolve addr with
  | .empty =>
      { id := "", ok := false, latency_ms := env.elapsedAtResolve,
        error := some "dns_failed", timestamp := env.timestamp }
  | .err e =>
      { id := "", ok := false, latency_ms := env.elapsedAtResolve,
        error := some ("dns_error: " ++ e), timestamp := env.timestamp }
  | .addr =>
      match env.connect timeout_ms with
      | .ok =>
          { id := "", ok := true, latency_ms := env.elapsedAtConnect,
            error := none, timestamp := env.timestamp }
      | .err e =>
          { id := "", ok := false, latency_ms := env.elapsedAtConnect,
            error := some e, timestamp := env.timestamp }

/-- Characters collected by the parser's `take_while(|c| c.is_ascii_digit() || *c == '.')`. -/
def isNumChar (c : Char) : Bool :=
  c.isDigit || c == '.'

/-- Numeric value of a digit list (most significant first). -/
def digitsVal (ds : List Char) : Nat :=
  ds.foldl (fun a c => a * 10 + (c.toNat - 48)) 0

/-- Rust `f64::from_str` succeeds on the collected digit-and-dot token iff
it has at least one digit and at most one dot (`"12"`, `"1."`, `".5"` parse;
`""`, `"."`, `"1.2.3"` do not). -/
def validNum (tok : List Char) : Bool :=
  tok.any Char.isDigit && tok.count '.' ≤ 1

/-- Value of a valid numeric token, rounded half-away-from-zero to the
nearest natural (Rust `val.round() as u64` on the nonnegative parsed value):
for integer part `I`, fraction digits `F` of length `k`, this is
`⌊(I.F) + 1/2⌋ = (2·(I·10^k + F) + 10^k) / (2·10^k)`. -/
def roundNum (tok : List Char) : Nat :=
  let ip := tok.takeWhile (fun c => c ≠ '.')
  let fp := (tok.dropWhile (fun c => c ≠ '.')).drop 1
  let k := fp.length
  let p := digitsVal ip * 10 ^ k + digitsVal fp
  (2 * p + 10 ^ k) / (2 * 10 ^ k)

/-- Suffix of `l` right after the first occurrence of `pat` (Rust
`l.find(pat)` followed by `&l[pos + pat.len()..]`); `none` when `pat` does
not occur in `l`. -/
def findAfter (pat : List Char) : List Char → Option (List Char)
  | [] => if pat.isPrefixOf ([] : List Char) then some [] else none
  | c :: rest =>
      if pat.isPrefixOf (c :: rest) then some ((c :: rest).drop pat.length)
      else findAfter pat rest

/-- The pattern `"time="` as a character list. -/
def timeEqPat : List Char := ['t', 'i', 'm', 'e', '=']

/-- The pattern `"time<"` as a character list. -/
def timeLtPat : List Char := ['t', 'i', 'm', 'e', '<']

/-- Rust `line.to_lowercase()`, modelled on ASCII. -/
def lowerLine (l : List Char) : List Char :=
  l.map Char.toLower

/-- One iteration of the parser loop in `fn parse_ping_latency`: on the
lowercased line, the `time=` branch is tried first (`if let`), and only a
line with no `time=` at all falls to the `time<` branch (`else if`).  A
`time=` whose token fails to parse yields nothing from this line (the Rust
loop moves on); a `time<` always yields a value (`return Some(1)` when the
token fails to parse). -/
def parseLine (line : List Char) : Option Nat :=
  let lower := lowerLine line
  match findAfter timeEqPat lower with
  | some after =>
      let tok := after.takeWhile isNumChar
      if validNum tok then some (roundNum tok) else none
  | none =>
      match findAfter timeLtPat lower with
      | some after =>
          let tok := after.takeWhile isNumChar
          if validNum tok then some (max (roundNum tok) 1) else some 1
      | none => none

/-- First `some` produced by `parseLine` over the lines, in order (the Rust
`for line in output.lines()` loop with early `return`). -/
def scanLines : List (List Char) → Option Nat
  | [] => none
  | line :: rest =>
      match parseLine line with
      | some v => some v
      | none => scanLines rest

/-- Split a character list at every newline (keeping empty pieces). -/
def splitNl : List Char → List (List Char)
  | [] => [[]]
  | c :: rest =>
      if c = '\n' then [] :: splitNl rest
      else
        match splitNl rest with
        | [] => [[c]]
        | p :: ps => (c :: p) :: ps

/-- Drop one trailing carriage return, as Rust `str::lines` does per line. -/
def stripCr (l : List Char) : List Char :=
  match l.reverse with
  | '\r' :: rest => rest.reverse
  | _ => l

/-- Rust `str::lines`: split on `'\n'`, no empty trailing line when the
input ends with a newline, each line stripped of one trailing `'\r'`. -/
def rustLines (l : List Char) : List (List Char) :=
  match l with
  | [] => []
  | _ =>
      let parts := splitNl l
      let parts := if l.getLast? = some '\n' then parts.dropLast else parts
      parts.map stripCr

/-- Ping-output parser (`fn parse_ping_latency`). -/
def parse_ping_latency (output : String) : Option Nat :=
  scanLines (rustLines output.toList)

/-- Outcome of `Command::new("ping").args(...).output()`: either the
process ran to completion (with exit status and captured streams) or it
could not be launched. -/
inductive PingOutcome
  | launched (exitSuccess : Bool) (stdout stderr : String)
  | launchError (cause : String)
deriving Repr, DecidableEq

/-- Environment of one `icmp_ping` call.  `run host` is what the OS ping
utility did for this host; `timestamp` is ms since epoch at probe start;
`elapsed` is `start.elapsed()` after the process completed and
`elapsedAtErr` the reading on the launch-failure return path. -/
structure PingEnv where
  run : String → PingOutcome
  timestamp : Nat
  elapsed : Nat
  elapsedAtErr : Nat

/-- Rust `str::trim`, modelled on ASCII whitespace. -/
def rustTrim (s : String) : String :=
  ⟨((s.toList.dropWhile Char.isWhitespace).reverse.dropWhile
      Char.isWhitespace).reverse⟩

/-- ICMP-ping probe (`fn icmp_ping`): run the platform ping once; on
successful exit parse the latency from stdout, falling back to the
measured elapsed time; on non-zero exit report `ping_failed` with the
trimmed stderr; on launch failure report `ping_unavailable`. -/
def icmp_ping (env : PingEnv) (host : String) : ProbeResult :=
  match env.run host with
  | .launched exitSuccess stdout stderr =>
      if exitSuccess then
        { id := "", ok := true,
          latency_ms := (parse_ping_latency stdout).getD env.elapsed,
          error := none, timestamp := env.timestamp }
      else
        { id := "", ok := false, latency_ms := env.elapsed,
          error := some ("ping_failed: " ++ rustTrim stderr),
          timestamp := env.timestamp }
  | .launchError e =>
      { id := "", ok := false, latency_ms := env.elapsedAtErr,
        error := some ("ping_unavailable: " ++ e),
        timestamp := env.timestamp }

/-- Outcome of awaiting a `tokio::task::spawn_blocking` handle: the closure
ran to completion, or the join failed (the task panicked / was aborted). -/
inductive TaskOutcome
  | completed
  | failed
deriving Repr, DecidableEq

/-- Environment of one probe execution: the OS environments of both
executors plus the fate of the spawned blocking task. -/
structure ProbeEnv where
  tcp : TcpEnv
  ping : PingEnv
  task : TaskOutcome

/-- The probe-dispatch closure body shared by `probe_target` and the
scheduler: `if pt == "ping" { icmp_ping(&host) } else { tcp_probe(&host, port, 2000) }`. -/
def run_probe (env : ProbeEnv) (host : String) (port : Nat) (pt : String) :
    ProbeResult :=
  if pt = "ping" then icmp_ping env.ping host
  else tcp_probe env.tcp host port 2000

/-- On-demand entry point (`fn probe_target`): default the probe type to
`"tcp"`, run the dispatch closure on a blocking task, and on join failure
substitute the literal fallback record. -/
def probe_target (env : ProbeEnv) (host : String) (port : Nat)
    (probe_type : Option String) : ProbeResult :=
  let pt := probe_type.getD "tcp"
  match env.task with
  | .completed => run_probe env host port pt
  | .failed =>
      { id := "", ok := false, latency_ms := 0,
        error := some "task_failed", timestamp := 0 }

/-- Result delivered by one spawned probe task of a scheduler tick
(`start_probe_loop`): when the task completes, its result is the dispatch
closure's result with the target's `id` written into it; when the join
fails (`if let Ok(result) = handle.await`), nothing is delivered. -/
def tick_task_result (env : Target → ProbeEnv) (t : Target) :
    Option ProbeResult :=
  match (env t).task with
  | .completed =>
      some { run_probe (env t) t.host t.port t.probe_type with id := t.id }
  | .failed => none

/-- Events emitted to the sink by one scheduler tick over the snapshot
`targets`: an empty snapshot short-circuits (`continue`) before any spawn;
otherwise the loop awaits the handles in submission order and emits each
successfully joined result. -/
def tick_emits (env : Target → ProbeEnv) (targets : List Target) :
    List ProbeResult :=
  if targets.isEmpty then []
  else targets.filterMap (tick_task_result env)

/-- Number of probe tasks spawned by one tick: zero on an empty snapshot
(the loop `continue`s before the spawn), else one per target. -/
def tick_launches (targets : List Target) : Nat :=
  if targets.isEmpty then 0 else targets.length

/-- Modelled from the spec and the tokio documentation (the `tokio::time`
interval driving `start_probe_loop` is library code outside this
repository): with `MissedTickBehavior::Skip` and period `p` started at
time 0, a ticker polled at time `now` with pending deadline `dl` fires at
`max now dl`, and the following deadline is the smallest multiple of `p`
strictly after the firing instant — missed multiples are skipped, never
queued. -/
def nextDeadlineAfter (p now : Nat) : Nat :=
  p * (now / p + 1)

/-- Modelled from the spec: the scheduler loop of `start_probe_loop` as a
timed trace.  Given the durations of successive tick batches, produce the
(start, finish) window of each batch: the loop awaits the whole batch
(duration `d`) before polling the ticker again, so the next poll happens at
the previous finish time. -/
def schedule (p : Nat) : Nat → Nat → List Nat → List (Nat × Nat)
  | _, _, [] => []
  | now, dl, d :: ds =>
      let fire := max now dl
      (fire, fire + d) :: schedule p (fire + d) (nextDeadlineAfter p fire) ds

/-- Concrete TCP environment in which name resolution and the connect both
succeed (used to instantiate general statements). -/
def happyTcpEnv : TcpEnv :=
  ⟨fun _ => .addr, fun _ => .ok, 10, 1, 2⟩

/-- Concrete ping environment in which the ping utility runs and succeeds. -/
def happyPingEnv : PingEnv :=
  ⟨fun _ => .launched true "64 bytes: time=3 ms" "", 10, 4, 5⟩

/-- Concrete probe environment whose blocking task completes. -/
def happyProbeEnv : ProbeEnv :=
  ⟨happyTcpEnv, happyPingEnv, .completed⟩

/-- Concrete probe environment whose blocking task fails to complete. -/
def failedTaskEnv : ProbeEnv :=
  ⟨happyTcpEnv, happyPingEnv, .failed⟩

/-- A concrete target. -/
def sampleTarget : Target :=
  ⟨"t1", "alpha", "host-a", 80, "tcp"⟩

/-- A second concrete target. -/
def sampleTarget2 : Target :=
  ⟨"t2", "beta", "host-b", 443, "tcp"⟩


/-- Helper: the error-iff-failure shape of every `tcp_probe` result. -/
theorem tcp_error_iff (env : TcpEnv) (host : String) (port timeout : Nat) :
    (tcp_probe env host port timeout).error.isSome
      ↔ (tcp_probe env host port timeout).ok = false := by
  unfold tcp_probe
  rcases h : env.resolve (host ++ ":" ++ toString port) with e | _ | _ <;> simp [h]
  rcases h2 : env.connect timeout with _ | m <;> simp [h2]

/-- Helper: the error-iff-failure shape of every `icmp_ping` result. -/
theorem ping_error_iff (env : PingEnv) (host : String) :
    (icmp_ping env host).error.isSome ↔ (icmp_ping env host).ok = false := by
  unfold icmp_ping
  rcases env.run host with ⟨s, out, err⟩ | c
  · rcases s with _ | _ <;> simp
  · simp

/-- C7: every `ProbeResult` produced by any probe path — the TCP probe, the
ICMP ping probe, and the on-demand `probe_target` entry point including its
task-failure fallback — has its `error` field present exactly when
`ok = false`. -/
theorem error_present_iff_not_ok (env : ProbeEnv) (host : String)
    (port timeout : Nat) (probe_type : Option String) :
    ((tcp_probe env.tcp host port timeout).error.isSome
      ↔ (tcp_probe env.tcp host port timeout).ok = false) ∧
    ((icmp_ping env.ping host).error.isSome
      ↔ (icmp_ping env.ping host).ok = false) ∧
    ((probe_target env host port probe_type).error.isSome
      ↔ (probe_target env host port probe_type).ok = false) := by
  refine ⟨tcp_error_iff env.tcp host port timeout, ping_error_iff env.ping host, ?_⟩
  unfold probe_target run_probe
  rcases env.task with _ | _
  · by_cases h : probe_type.getD "tcp" = "ping" <;>
      simp [h, ping_error_iff, tcp_error_iff]
  · simp

/-- C8: writing a target sequence through `set_targets` and reading it back
through `get_targets` returns exactly the written sequence, element for
element; the read is a value copy, not a view of registry internals. -/
theorem replace_all_then_snapshot (state s : List Target) :
    get_targets (set_targets state s) = s :=
  rfl

/-- C5: classification of every `tcp_probe` outcome — empty resolution set
gives `dns_failed`, a resolution error gives `dns_error: <cause>`, a
successful connect gives `ok = true` with no error, a failed connect gives
the stringified OS error; in every case `latency_ms` is the elapsed time
read at that exit point and `timestamp` the start-of-probe epoch time. -/
theorem tcp_probe_classification (env : TcpEnv) (host : String)
    (port timeout : Nat) :
    (env.resolve (host ++ ":" ++ toString port) = .empty →
        tcp_probe env host port timeout =
          { id := "", ok := false, latency_ms := env.elapsedAtResolve,
            error := some "dns_failed", timestamp := env.timestamp }) ∧
    (∀ c, env.resolve (host ++ ":" ++ toString port) = .err c →
        tcp_probe env host port timeout =
          { id := "", ok := false, latency_ms := env.elapsedAtResolve,
            error := some ("dns_error: " ++ c), timestamp := env.timestamp }) ∧
    (env.resolve (host ++ ":" ++ toString port) = .addr →
        env.connect timeout = .ok →
        tcp_probe env host port timeout =
          { id := "", ok := true, latency_ms := env.elapsedAtConnect,
            error := none, timestamp := env.timestamp }) ∧
    (∀ m, env.resolve (host ++ ":" ++ toString port) = .addr →
        env.connect timeout = .err m →
        tcp_probe env host port timeout =
          { id := "", ok := false, latency_ms := env.elapsedAtConnect,
            error := some m, timestamp := env.timestamp }) := by
  refine ⟨fun h => ?_, fun c h => ?_, fun h h2 => ?_, fun m h h2 => ?_⟩ <;>
    unfold tcp_probe <;> simp [h]
  · rw [h2]
  · rw [h2]

/-- Witness for C5: a concrete environment whose resolution returns an
empty set yields the `dns_failed` record. -/
theorem tcp_probe_classification_witness :
    tcp_probe ⟨fun _ => .empty, fun _ => .ok, 11, 3, 4⟩ "h" 80 2000 =
      { id := "", ok := false, latency_ms := 3,
        error := some "dns_failed", timestamp := 11 } :=
  (tcp_probe_classification ⟨fun _ => .empty, fun _ => .ok, 11, 3, 4⟩
    "h" 80 2000).1 rfl

/-- Helper: character list of an appended string. -/
theorem toList_append (a b : String) :
    (a ++ b).toList = a.toList ++ b.toList :=
  String.data_append a b

/-- Helper: a list that differs from `b` at an index inside both literals
is not a prefix of `b ++ x`. -/
theorem ne_at_index_not_prefixOf (a b x : String) (i : Nat)
    (hia : i < a.toList.length) (hib : i < b.toList.length)
    (hne : a.toList[i]? ≠ b.toList[i]?) :
    a.toList.isPrefixOf (b ++ x).toList = false := by
  rw [Bool.eq_false_iff]
  intro hpre
  rw [List.isPrefixOf_iff_prefix] at hpre
  obtain ⟨t, ht⟩ := hpre
  apply hne
  have hi := congrArg (fun l => l[i]?) ht
  simp only at hi
  rwa [List.getElem?_append_left hia, toList_append,
    List.getElem?_append_left hib] at hi

/-- Helper: a string is a prefix of itself followed by anything. -/
theorem self_isPrefixOf_append (a x : String) :
    a.toList.isPrefixOf (a ++ x).toList = true := by
  rw [List.isPrefixOf_iff_prefix, toList_append]
  exact List.prefix_append _ _

/-- C6: the ICMP ping probe reports `ping_failed: <trimmed stderr>` exactly
when the ping process ran and exited non-zero, and `ping_unavailable:
<cause>` exactly when the process could not be launched; both failure
records carry the probe's own elapsed wall-clock reading as `latency_ms`. -/
theorem icmp_ping_failure_classification (env : PingEnv) (host : String) :
    (∀ out err, env.run host = .launched false out err →
        icmp_ping env host =
          { id := "", ok := false, latency_ms := env.elapsed,
            error := some ("ping_failed: " ++ rustTrim err),
            timestamp := env.timestamp }) ∧
    (∀ c, env.run host = .launchError c →
        icmp_ping env host =
          { id := "", ok := false, latency_ms := env.elapsedAtErr,
            error := some ("ping_unavailable: " ++ c),
            timestamp := env.timestamp }) ∧
    ((∃ e, (icmp_ping env host).error = some e ∧
        "ping_failed: ".toList.isPrefixOf e.toList = true) ↔
      ∃ out err, env.run host = .launched false out err) ∧
    ((∃ e, (icmp_ping env host).error = some e ∧
        "ping_unavailable: ".toList.isPrefixOf e.toList = true) ↔
      ∃ c, env.run host = .launchError c) := by
  refine ⟨fun out err h => ?_, fun c h => ?_, ?_, ?_⟩
  · unfold icmp_ping; rw [h]; simp
  · unfold icmp_ping; rw [h]
  · unfold icmp_ping
    rcases h : env.run host with ⟨s, out, err⟩ | c
    · rcases s with _ | _
      · simp only [Bool.false_eq_true, if_false]
        constructor
        · intro _; exact ⟨out, err, rfl⟩
        · intro _
          exact ⟨_, rfl, self_isPrefixOf_append "ping_failed: " (rustTrim err)⟩
      · simp
    · simp only []
      constructor
      · rintro ⟨e, he, hpre⟩
        rw [Option.some_inj] at he
        rw [← he] at hpre
        rw [ne_at_index_not_prefixOf "ping_failed: " "ping_unavailable: " c 5
          (by decide) (by decide) (by decide)] at hpre
        exact absurd hpre (by decide)
      · rintro ⟨o, e, he⟩
        exact absurd he (by simp)
  · unfold icmp_ping
    rcases h : env.run host with ⟨s, out, err⟩ | c
    · rcases s with _ | _
      · simp only [Bool.false_eq_true, if_false]
        constructor
        · rintro ⟨e, he, hpre⟩
          rw [Option.some_inj] at he
          rw [← he] at hpre
          rw [ne_at_index_not_prefixOf "ping_unavailable: " "ping_failed: "
            (rustTrim err) 5 (by decide) (by decide) (by decide)] at hpre
          exact absurd hpre (by decide)
        · rintro ⟨c, hc⟩
          exact absurd hc (by simp)
      · simp
    · simp only []
      constructor
      · intro _; exact ⟨c, rfl⟩
      · intro _
        exact ⟨_, rfl, self_isPrefixOf_append "ping_unavailable: " c⟩

/-- Witness for C6: a concrete non-zero-exit run yields the `ping_failed`
record with the trimmed stderr embedded. -/
theorem icmp_ping_failure_classification_witness :
    icmp_ping ⟨fun _ => .launched false "" " oops \n", 21, 6, 7⟩ "h" =
      { id := "", ok := false, latency_ms := 6,
        error := some "ping_failed: oops", timestamp := 21 } := by
  have h := (icmp_ping_failure_classification
    ⟨fun _ => .launched false "" " oops \n", 21, 6, 7⟩ "h").1 "" " oops \n" rfl
  rw [h]
  decide

/-- Helper: a line in which neither `time=` nor `time<` occurs yields
nothing. -/
theorem parseLine_none (line : List Char)
    (h1 : findAfter timeEqPat (lowerLine line) = none)
    (h2 : findAfter timeLtPat (lowerLine line) = none) :
    parseLine line = none := by
  unfold parseLine
  dsimp only
  rw [h1, h2]

/-- Helper: scanning lines that each yield nothing yields nothing. -/
theorem scanLines_none (ls : List (List Char))
    (h : ∀ l ∈ ls, parseLine l = none) : scanLines ls = none := by
  induction ls with
  | nil => rfl
  | cons a as ih =>
      unfold scanLines
      rw [h a (List.mem_cons_self a as)]
      exact ih fun l hl => h l (List.mem_cons_of_mem a hl)

/-- C2: the ping-output parser, line by line and case-insensitively,
returns the rounded value of the numeric token following the first
`time=`; for `time<` it returns the rounded token clamped to a minimum of
1, or exactly 1 when no parsable numeric token follows; the documented
example line yields 12, an input containing `time<1ms` yields 1, and when
no `time=`/`time<` occurs anywhere in a successful ping's output the
probe's `latency_ms` falls back to the measured elapsed time. -/
theorem ping_parser_correct :
    parse_ping_latency "64 bytes from x: icmp_seq=1 ttl=64 time=12.3 ms" =
        some 12 ∧
    parse_ping_latency "Reply from x: bytes=32 time<1ms TTL=64" = some 1 ∧
    (∀ line after, findAfter timeEqPat (lowerLine line) = some after →
        validNum (after.takeWhile isNumChar) = true →
        parseLine line = some (roundNum (after.takeWhile isNumChar))) ∧
    (∀ line after, findAfter timeEqPat (lowerLine line) = none →
        findAfter timeLtPat (lowerLine line) = some after →
        parseLine line =
          some (if validNum (after.takeWhile isNumChar) = true
                then max (roundNum (after.takeWhile isNumChar)) 1 else 1)) ∧
    (∀ (env : PingEnv) (host out err : String),
        env.run host = .launched true out err →
        (∀ line ∈ rustLines out.toList,
            findAfter timeEqPat (lowerLine line) = none ∧
            findAfter timeLtPat (lowerLine line) = none) →
        (icmp_ping env host).latency_ms = env.elapsed) := by
  refine ⟨by decide, by decide, fun line after h1 h2 => ?_,
    fun line after h1 h2 => ?_, fun env host out err hrun hnone => ?_⟩
  · unfold parseLine
    dsimp only
    rw [h1]
    dsimp only
    rw [if_pos h2]
  · unfold parseLine
    dsimp only
    rw [h1, h2]
    dsimp only
    rcases h : validNum (after.takeWhile isNumChar) with _ | _ <;> simp
  · have hparse : parse_ping_latency out = none :=
      scanLines_none _ fun l hl =>
        parseLine_none l (hnone l hl).1 (hnone l hl).2
    unfold icmp_ping
    rw [hrun]
    simp [hparse]

/-- Witness for C2: the general clauses instantiated on concrete lines and
a concrete successful run with token-free output. -/
theorem ping_parser_correct_witness :
    parseLine "time=7 ms".toList = some 7 ∧
    parseLine "x time<0.3 ms".toList = some 1 ∧
    (icmp_ping ⟨fun _ => .launched true "no token" "", 5, 42, 7⟩
        "h").latency_ms = 42 := by
  refine ⟨?_, ?_, ?_⟩
  · have h := ping_parser_correct.2.2.1 "time=7 ms".toList "7 ms".toList
      (by decide) (by decide)
    rw [h]; decide
  · have h := ping_parser_correct.2.2.2.1 "x time<0.3 ms".toList "0.3 ms".toList
      (by decide) (by decide)
    rw [h]; decide
  · exact ping_parser_correct.2.2.2.2
      ⟨fun _ => .launched true "no token" "", 5, 42, 7⟩
      "h" "no token" "" rfl (by decide)

/-- Helper: the tick's filterMap over task results is a map over the
targets whose task completed. -/
theorem filterMap_tick_filter (env : Target → ProbeEnv) (ts : List Target) :
    ts.filterMap (tick_task_result env) =
      (ts.filter fun t => (env t).task == TaskOutcome.completed).map
        fun t =>
          { run_probe (env t) t.host t.port t.probe_type with id := t.id } := by
  induction ts with
  | nil => rfl
  | cons a as ih =>
      rcases h : (env a).task with _ | _
      · have hres : tick_task_result env a =
            some { run_probe (env a) a.host a.port a.probe_type with
                     id := a.id } := by
          unfold tick_task_result
          rw [h]
        rw [List.filterMap_cons, hres, List.filter_cons, if_pos (by simp [h]),
          List.map_cons, ih]
      · have hres : tick_task_result env a = none := by
          unfold tick_task_result
          rw [h]
        rw [List.filterMap_cons, hres, List.filter_cons, if_neg (by simp [h]),
          ih]

/-- Helper: the tick's emitted events are always the filterMap of the task
results (the empty-snapshot guard is the empty filterMap). -/
theorem tick_emits_eq_filterMap (env : Target → ProbeEnv)
    (ts : List Target) :
    tick_emits env ts = ts.filterMap (tick_task_result env) := by
  unfold tick_emits
  rcases ts with _ | ⟨a, as⟩
  · rfl
  · rw [if_neg (by simp)]

/-- C3 counterexample: a tick over a one-target snapshot whose probe task
fails to run to completion emits zero sink events, not one — the tick's
event count falls short of the target count. -/
theorem tick_event_count_cx :
    tick_emits (fun _ => failedTaskEnv) [sampleTarget2] = [] ∧
    (tick_emits (fun _ => failedTaskEnv) [sampleTarget2]).length ≠
      [sampleTarget2].length :=
  ⟨rfl, by decide⟩

/-- C3 amended: a scheduler tick emits one sink event per target whose
probe task runs to completion — in snapshot (submission) order, each event
carrying its target's `id` — and nothing for a target whose task fails;
in particular exactly N events for an N-target batch whenever every task
completes, and an empty snapshot launches no probes and emits no events. -/
theorem tick_events_per_completed_task (env : Target → ProbeEnv)
    (targets : List Target) :
    tick_emits env targets =
      (targets.filter fun t => (env t).task == TaskOutcome.completed).map
        (fun t =>
          { run_probe (env t) t.host t.port t.probe_type with id := t.id }) ∧
    (tick_emits env targets).map ProbeResult.id =
      (targets.filter fun t => (env t).task == TaskOutcome.completed).map
        Target.id ∧
    ((∀ t ∈ targets, (env t).task = .completed) →
        (tick_emits env targets).length = targets.length ∧
        (tick_emits env targets).map ProbeResult.id =
          targets.map Target.id) ∧
    tick_emits env [] = [] ∧ tick_launches [] = 0 := by
  have key := (tick_emits_eq_filterMap env targets).trans
    (filterMap_tick_filter env targets)
  refine ⟨key, ?_, fun hall => ?_, rfl, rfl⟩
  · rw [key, List.map_map]
    rfl
  · have hfilter :
        (targets.filter fun t => (env t).task == TaskOutcome.completed) =
          targets :=
      List.filter_eq_self.mpr fun t ht => by rw [hall t ht]; rfl
    constructor
    · rw [key, hfilter, List.length_map]
    · rw [key, hfilter, List.map_map]
      rfl

/-- Witness for C3's amended statement: a two-target batch whose tasks
complete emits two events carrying the targets' ids. -/
theorem tick_events_per_completed_task_witness :
    (tick_emits (fun _ => happyProbeEnv) [sampleTarget, sampleTarget2]).length = 2 ∧
    (tick_emits (fun _ => happyProbeEnv) [sampleTarget, sampleTarget2]).map
        ProbeResult.id = ["t1", "t2"] := by
  have h := (tick_events_per_completed_task (fun _ => happyProbeEnv)
    [sampleTarget, sampleTarget2]).2.2.1 fun t _ => rfl
  refine ⟨h.1, ?_⟩
  rw [h.2]
  decide

/-- C1 counterexample: a batch with one target whose probe task fails to
complete delivers nothing to the sink — in particular no `ok = false`,
`error = "task_failed"` result for that target, contrary to the claim. -/
theorem scheduler_drops_failed_task_cx :
    (failedTaskEnv.task = TaskOutcome.failed) ∧
    tick_emits (fun _ => failedTaskEnv) [sampleTarget] = [] ∧
    ¬ ∃ r, r ∈ tick_emits (fun _ => failedTaskEnv) [sampleTarget] ∧
        r.error = some "task_failed" := by
  refine ⟨rfl, rfl, ?_⟩
  rintro ⟨r, hr, -⟩
  simp [tick_emits, tick_task_result, failedTaskEnv] at hr

/-- C1 amended: when the task running a target's probe fails to complete,
the scheduler delivers no result at all for that target (the join error is
silently discarded by `if let Ok`), while the sibling probes of the batch
deliver exactly as they would without it and the loop goes on; the
`error = "task_failed"` fallback record exists only on the on-demand
`probe_target` entry point. -/
theorem scheduler_failed_task_isolation (env : Target → ProbeEnv)
    (pre post : List Target) (t : Target)
    (hfail : (env t).task = .failed) :
    tick_emits env (pre ++ t :: post) =
      tick_emits env pre ++ tick_emits env post ∧
    probe_target (env t) t.host t.port (some t.probe_type) =
      { id := "", ok := false, latency_ms := 0,
        error := some "task_failed", timestamp := 0 } := by
  constructor
  · have ht : tick_task_result env t = none := by
      unfold tick_task_result
      rw [hfail]
    rw [tick_emits_eq_filterMap, tick_emits_eq_filterMap,
      tick_emits_eq_filterMap, List.filterMap_append, List.filterMap_cons, ht]
  · unfold probe_target
    rw [hfail]

/-- Witness for C1's amended statement: the failing middle target of a
three-target batch is skipped while its two siblings' events are emitted. -/
theorem scheduler_failed_task_isolation_witness :
    tick_emits
        (fun u => if u.id = "t1" then failedTaskEnv else happyProbeEnv)
        ([sampleTarget2] ++ sampleTarget :: [sampleTarget2]) =
      tick_emits
          (fun u => if u.id = "t1" then failedTaskEnv else happyProbeEnv)
          [sampleTarget2] ++
        tick_emits
          (fun u => if u.id = "t1" then failedTaskEnv else happyProbeEnv)
          [sampleTarget2] ∧
    probe_target failedTaskEnv "host-a" 80 (some "tcp") =
      { id := "", ok := false, latency_ms := 0,
        error := some "task_failed", timestamp := 0 } := by
  have h := scheduler_failed_task_isolation
    (fun u => if u.id = "t1" then failedTaskEnv else happyProbeEnv)
    [sampleTarget2] [sampleTarget2] sampleTarget rfl
  exact ⟨h.1, h.2⟩

/-- C4 counterexample: a target with the unknown probe_type `"bogus"` is
accepted and stored unchanged by the registry, yet in an environment where
the TCP connect succeeds its probe (which falls back to the TCP executor)
returns `ok = true` — it does not surface as a probe failure. -/
theorem unknown_probe_type_can_succeed_cx :
    set_targets []
        [{ id := "t9", name := "n", host := "good.example", port := 80,
           probe_type := "bogus" }] =
      [{ id := "t9", name := "n", host := "good.example", port := 80,
         probe_type := "bogus" }] ∧
    (run_probe happyProbeEnv "good.example" 80 "bogus").ok = true :=
  ⟨rfl, rfl⟩

/-- C4 amended: `set_targets` stores any sequence unchanged, with no
per-item validation (empty host, zero port, unknown probe_type are all
accepted); a non-`"ping"` probe_type — unknown ones included — is
dispatched to the TCP executor, and the target surfaces as an `ok = false`
result whenever that probe's resolution or connection fails (as it does
for an empty or unresolvable host), while an unknown probe_type by itself
forces no failure. -/
theorem replace_all_unvalidated (state s : List Target) (env : ProbeEnv)
    (t : Target) (hpt : t.probe_type ≠ "ping")
    (hfail : env.tcp.resolve (t.host ++ ":" ++ toString t.port) =
          ResolveOutcome.empty ∨
        (∃ c, env.tcp.resolve (t.host ++ ":" ++ toString t.port) =
          ResolveOutcome.err c) ∨
        (∃ m, env.tcp.connect 2000 = ConnectOutcome.err m)) :
    set_targets state s = s ∧
    run_probe env t.host t.port t.probe_type =
      tcp_probe env.tcp t.host t.port 2000 ∧
    (run_probe env t.host t.port t.probe_type).ok = false := by
  have hdisp : run_probe env t.host t.port t.probe_type =
      tcp_probe env.tcp t.host t.port 2000 := by
    unfold run_probe
    rw [if_neg hpt]
  refine ⟨rfl, hdisp, ?_⟩
  rw [hdisp]
  unfold tcp_probe
  dsimp only
  rcases hfail with h | ⟨c, h⟩ | ⟨m, h⟩
  · rw [h]
  · rw [h]
  · rcases hr : env.tcp.resolve (t.host ++ ":" ++ toString t.port)
      with c | _ | _ <;> simp [hr, h]

/-- Witness for C4's amended statement: a stored target with empty host,
zero port and unknown probe_type, probed in an environment whose
resolution of `":0"` errors, yields `ok = false`. -/
theorem replace_all_unvalidated_witness :
    set_targets [sampleTarget]
        [{ id := "t0", name := "n", host := "", port := 0,
           probe_type := "bogus" }] =
      [{ id := "t0", name := "n", host := "", port := 0,
         probe_type := "bogus" }] ∧
    (run_probe ⟨⟨fun _ => .err "invalid socket address", fun _ => .ok, 1, 2, 3⟩,
        happyPingEnv, .completed⟩ "" 0 "bogus").ok = false := by
  have h := replace_all_unvalidated [sampleTarget]
    [{ id := "t0", name := "n", host := "", port := 0,
       probe_type := "bogus" }]
    ⟨⟨fun _ => .err "invalid socket address", fun _ => .ok, 1, 2, 3⟩,
      happyPingEnv, .completed⟩
    { id := "t0", name := "n", host := "", port := 0, probe_type := "bogus" }
    (by decide) (Or.inr (Or.inl ⟨"invalid socket address", rfl⟩))
  exact ⟨h.1, h.2.2⟩

/-- Helper: the next deadline is strictly in the future. -/
theorem lt_nextDeadlineAfter (p n : Nat) (hp : 0 < p) :
    n < nextDeadlineAfter p n := by
  unfold nextDeadlineAfter
  calc n = p * (n / p) + n % p := (Nat.div_add_mod n p).symm
    _ < p * (n / p) + p := Nat.add_lt_add_left (Nat.mod_lt n hp) _
    _ = p * (n / p + 1) := by ring

/-- Helper: the first batch of a schedule starts no earlier than the poll
time and the pending deadline. -/
theorem schedule_head_bound (p : Nat) (ds : List Nat) (now dl : Nat) :
    ∀ x ∈ (schedule p now dl ds).head?, now ≤ x.1 ∧ dl ≤ x.1 := by
  cases ds with
  | nil => intro x hx; simp [schedule] at hx
  | cons d ds =>
      intro x hx
      simp only [schedule, List.head?_cons, Option.mem_def,
        Option.some_inj] at hx
      rw [← hx]
      exact ⟨Nat.le_max_left now dl, Nat.le_max_right now dl⟩

/-- Helper: every schedule trace keeps batches disjoint and starts each
batch no earlier than the first period boundary after its predecessor. -/
theorem schedule_chain (p : Nat) (ds : List Nat) :
    ∀ now dl, (schedule p now dl ds).Chain'
      fun a b => a.2 ≤ b.1 ∧ nextDeadlineAfter p a.1 ≤ b.1 := by
  induction ds with
  | nil => intro now dl; exact List.chain'_nil
  | cons d ds ih =>
      intro now dl
      rw [schedule, List.chain'_cons']
      refine ⟨fun b hb => ?_, ih _ _⟩
      have h := schedule_head_bound p ds (max now dl + d)
        (nextDeadlineAfter p (max now dl)) b hb
      exact ⟨h.1, h.2⟩

/-- C9: in the modelled scheduler trace with the 5-second period and
skip-missed-ticks, whatever the batch durations, consecutive batches never
overlap (each finishes before the next starts — at most one batch in
flight) and each batch starts no earlier than the first period boundary
strictly after its predecessor's start (missed ticks are dropped, never
queued as a burst), so batch starts strictly increase. -/
theorem skip_missed_ticks (ds : List Nat) :
    (schedule 5000 0 0 ds).Chain' fun a b =>
      a.2 ≤ b.1 ∧ nextDeadlineAfter 5000 a.1 ≤ b.1 ∧ a.1 < b.1 := by
  have h := schedule_chain 5000 ds 0 0
  refine List.Chain'.imp ?_ h
  intro a b hab
  exact ⟨hab.1, hab.2,
    lt_of_lt_of_le (lt_nextDeadlineAfter 5000 a.1 (by norm_num)) hab.2⟩

/-- C10: when the on-demand entry point's spawned blocking task fails, the
returned record is exactly `{id := "", ok := false, latency_ms := 0,
error := some "task_failed", timestamp := 0}`; every completed-task result
instead carries the underlying probe's start-of-probe epoch timestamp, and
its latency is one of the probe's elapsed readings or a parsed ping
latency. -/
theorem probe_target_task_failed (env : ProbeEnv) (host : String)
    (port : Nat) (probe_type : Option String) :
    (env.task = .failed →
        probe_target env host port probe_type =
          { id := "", ok := false, latency_ms := 0,
            error := some "task_failed", timestamp := 0 }) ∧
    (env.task = .completed →
        (probe_target env host port probe_type).timestamp =
          (if probe_type.getD "tcp" = "ping" then env.ping.timestamp
           else env.tcp.timestamp)) ∧
    (env.task = .completed →
        (probe_target env host port probe_type).latency_ms ∈
            [env.tcp.elapsedAtResolve, env.tcp.elapsedAtConnect,
             env.ping.elapsed, env.ping.elapsedAtErr] ∨
          ∃ out err, env.ping.run host = PingOutcome.launched true out err ∧
            (probe_target env host port probe_type).latency_ms ∈
              parse_ping_latency out) := by
  refine ⟨fun h => ?_, fun h => ?_, fun h => ?_⟩
  · unfold probe_target
    rw [h]
  · unfold probe_target run_probe
    rw [h]
    dsimp only
    by_cases hp : probe_type.getD "tcp" = "ping"
    · rw [if_pos hp, if_pos hp]
      unfold icmp_ping
      rcases hr : env.ping.run host with ⟨s, out, err⟩ | c
      · rcases s with _ | _ <;> simp
      · simp
    · rw [if_neg hp, if_neg hp]
      unfold tcp_probe
      rcases hr : env.tcp.resolve (host ++ ":" ++ toString port)
        with c | _ | _ <;> simp [hr]
      rcases hc : env.tcp.connect 2000 with _ | m <;> simp [hc]
  · unfold probe_target run_probe
    rw [h]
    dsimp only
    by_cases hp : probe_type.getD "tcp" = "ping"
    · rw [if_pos hp]
      unfold icmp_ping
      rcases hr : env.ping.run host with ⟨s, out, err⟩ | c
      · rcases s with _ | _
        · left; simp
        · rcases hv : parse_ping_latency out with _ | v
          · left; simp [hv]
          · right
            exact ⟨out, err, rfl, by simp [hv]⟩
      · left; simp
    · rw [if_neg hp]
      unfold tcp_probe
      rcases hr : env.tcp.resolve (host ++ ":" ++ toString port)
        with c | _ | _
      · left; simp [hr]
      · left; simp [hr]
      · rcases hc : env.tcp.connect 2000 with _ | m <;> left <;> simp [hr, hc]

/-- Witness for C10: the failed-task fallback record on a concrete call,
and a completed call's timestamp being the probe-start epoch time. -/
theorem probe_target_task_failed_witness :
    probe_target failedTaskEnv "h" 80 none =
      { id := "", ok := false, latency_ms := 0,
        error := some "task_failed", timestamp := 0 } ∧
    (probe_target happyProbeEnv "h" 80 none).timestamp = 10 := by
  constructor
  · exact (probe_target_task_failed failedTaskEnv "h" 80 none).1 rfl
  · have h := (probe_target_task_failed happyProbeEnv "h" 80 none).2.1 rfl
    rw [h]
    decide
